import Mathlib

/-!
Shallow embedding of the codecrafters-docker pipeline (`src/app/main.go`).

Go strings are modelled as `List Char` where character-level operations occur
(digest slicing `digest[7:]`, `strings.Split`) and as Lean `String` where they
are opaque (paths, error messages, file contents); the digests and image names
handled by the program are ASCII, so bytes and characters coincide.

Network and OS effects (the HTTP client, `os.MkdirTemp`, `os.Create`,
`io.Copy`, the `tar` subprocess, `syscall.Chroot`, `cmd.Run` of the user
command) are oracles packaged in a `World`; the pipeline functions are the
program's control flow over those oracles, translated statement by statement
from `main.go`.
-/

namespace DockerGo

/-- Preference for the first `Option` argument, used to express
"later write wins" lookups. -/
def optOr {α : Type} : Option α → Option α → Option α
  | some v, _ => some v
  | none, o => o

/-- A Go `error` value as `handleError` distinguishes them:
`exec.ExitError` (a started process exited nonzero, carrying its exit code)
versus any other error (carrying its message). -/
inductive GoError where
  | exitError (code : Int)
  | other (msg : String)
deriving DecidableEq

/-- Result of a Go function that can return a value, return an error, or
panic (out-of-range string slice, nil-pointer dereference). -/
inductive GoResult (α : Type) where
  | ok (a : α)
  | err (e : GoError)
  | crash (msg : String)
deriving DecidableEq

/-- How the whole process ends: `os.Exit`/normal return with a code, or a
runtime panic. -/
inductive Outcome where
  | exited (code : Int)
  | panicked (msg : String)
deriving DecidableEq

/-- An HTTP exchange as the code observes it: either a transport error from
the shared `httpClient`, or a response with a status code, a status line and
a body. -/
inductive Transport (β : Type) where
  | failure (msg : String)
  | response (statusCode : Nat) (status : String) (body : β)

/-- The `TokenResponse` struct from `main.go`. -/
structure TokenResponse where
  token : String
  authToken : String
  expiresIn : Int
  issuedAt : String
deriving DecidableEq

/-- What `json.NewDecoder(..).Decode(&token)` does to a response body when
the target is a `TokenResponse` VALUE: malformed JSON or a type mismatch is
an error; a decodable body (a JSON object, or `null`, which Go leaves as the
zero value) yields a `TokenResponse` whose absent fields are zero values.
`fields` carries each JSON field when present. -/
inductive TokenJson where
  | malformed (msg : String)
  | mismatched (msg : String)
  | fields (token : Option String) (authToken : Option String)
      (expiresIn : Option Int) (issuedAt : Option String)

/-- Go's decode of a token body (see `TokenJson`): absent fields become zero
values, never an error. -/
def decodeToken : TokenJson → Except String TokenResponse
  | .malformed m => .error m
  | .mismatched m => .error m
  | .fields t a e i => .ok ⟨t.getD "", a.getD "", e.getD 0, i.getD ""⟩

/-- A layer/config descriptor from `ManifestResponse` in `main.go`.
The digest is kept as characters because the code slices it. -/
structure Descriptor where
  mediaType : String
  size : Int
  digest : List Char
deriving DecidableEq

/-- The `ManifestResponse` struct from `main.go`. -/
structure ManifestResponse where
  schemaVersion : Int
  mediaType : String
  config : Descriptor
  layers : List Descriptor
deriving DecidableEq

/-- What `json.NewDecoder(..).Decode(&manifest)` does when the target is a
`*ManifestResponse` POINTER: malformed JSON or a type mismatch is an error;
the JSON literal `null` decodes WITHOUT error to a nil pointer; a decodable
object yields a `ManifestResponse` with absent fields as zero values
(absent `layers` is the empty sequence). -/
inductive ManifestJson where
  | malformed (msg : String)
  | mismatched (msg : String)
  | null
  | fields (m : ManifestResponse)

/-- Go's decode of a manifest body into `*ManifestResponse`; `none` is the
nil pointer produced by a `null` body. -/
def decodeManifest : ManifestJson → Except String (Option ManifestResponse)
  | .malformed m => .error m
  | .mismatched m => .error m
  | .null => .ok none
  | .fields m => .ok (some m)

/-- Contents of one layer archive: the ordered file entries `tar -xzf`
would write, as (path, content) pairs. Modelled from the spec: the `tar`
binary is external to the repository; the spec describes extraction as
unpacking the archive's entries into the destination directory. -/
def LayerContent : Type := List (String × String)

instance : DecidableEq LayerContent := by
  unfold LayerContent
  infer_instance

/-- A directory tree as a write history: later writes are consed on the
front, and `fsLookup` returns the most recent write for a path. -/
def FS : Type := List (String × String)

instance : DecidableEq FS := by
  unfold FS
  infer_instance

/-- Current content of path `p` in the tree: the most recent write wins. -/
def fsLookup (fs : FS) (p : String) : Option String :=
  (fs.find? (fun e => e.1 = p)).map (·.2)

/-- Applying one archive's entries in order onto a tree (what a successful
`tar -xzf src -C dest` does): each entry overwrites the path it names. -/
def extractTarFs (entries : LayerContent) (fs : FS) : FS :=
  entries.foldl (fun f e => e :: f) fs

/-- The last content an archive writes for path `p`, if any: later entries
take precedence over earlier ones. -/
def lastWrite (p : String) : LayerContent → Option String
  | [] => none
  | e :: es => optOr (lastWrite p es) (if e.1 = p then some e.2 else none)

/-- Whether an archive writes path `p` at all. -/
def layerWrites (p : String) (es : LayerContent) : Bool :=
  es.any (fun e => e.1 = p)

/-- Sequential extraction of a list of archives onto a starting tree, in
list order — the two loops of `main` compose to this on the temp dir. -/
def assembleOnto (L : List LayerContent) (fs : FS) : FS :=
  L.foldl (fun f c => extractTarFs c f) fs

/-- The root filesystem assembled from the layer archives in manifest
order, starting from the empty directory. -/
def assembleRoot (L : List LayerContent) : FS :=
  assembleOnto L []

/-- How `cmd.Run()` of the user command ends: the child ran and exited with
a status, or it could not be started at all. -/
inductive ChildOutcome where
  | exited (code : Int)
  | startFailure (msg : String)
deriving DecidableEq

/-- Return value of `cmd.Run()`: nil on exit status 0, an `exec.ExitError`
carrying the status on a nonzero exit, and a generic error when the binary
could not be started. -/
def cmdRunResult : ChildOutcome → Option GoError
  | .exited k => if k = 0 then none else some (.exitError k)
  | .startFailure m => some (.other m)

/-- The environment one pipeline run observes: the image argument, the
result of `os.MkdirTemp`, the three registry endpoints, per-file
`os.Create`/`io.Copy` failures, the outcome of each `tar` subprocess
(keyed by archive filename), the `syscall.Chroot` result, and the user
command's outcome. -/
structure World where
  imageName : List Char
  mkdirTempResult : Except String String
  tokenResp : Transport TokenJson
  manifestResp : Transport (String × ManifestJson)
  blobResp : List Char → Transport LayerContent
  createErr : List Char → Option String
  copyErr : List Char → Option String
  tarOutcome : List Char → Option GoError
  chrootErr : Option String
  childOutcome : ChildOutcome

/-- Observable state accumulated by one run: files created in the working
directory (most recent `os.Create` first), the temp dir's tree, whether the
deferred `os.RemoveAll(dir)` ran, lines the Go process itself printed to
its standard output and standard error, per-stage call counts/traces, and
whether `main` returned normally. -/
structure PipeState where
  files : List (List Char × LayerContent) := []
  dirFs : FS := []
  tmpDirRemoved : Bool := false
  stdout : List String := []
  stderr : List String := []
  tokenCalls : Nat := 0
  manifestCalls : Nat := 0
  blobCalls : List (List Char) := []
  extractCalls : List (List Char × String) := []
  chrootCalls : Nat := 0
  launchCalls : Nat := 0
  normalReturn : Bool := false
deriving DecidableEq

/-- Final observation of a run: the process outcome and the state. -/
structure RunResult where
  outcome : Outcome
  st : PipeState
deriving DecidableEq

/-- Function `handleError` from `main.go`: an `exec.ExitError` becomes `os.Exit` with
the child's code and prints nothing; any other error prints
`"Error <err>\n"` via `fmt.Printf` (to STANDARD OUTPUT) and exits 1.
Returns (exit code, lines printed to stdout). -/
def handleError : GoError → Int × List String
  | .exitError k => (k, [])
  | .other m => (1, ["Error " ++ m ++ "\n"])

/-- Terminate through `handleError`; `os.Exit` does NOT run deferred
functions, so `tmpDirRemoved` is left as it is. -/
def exitWith (e : GoError) (st : PipeState) : RunResult :=
  ⟨.exited (handleError e).1, { st with stdout := st.stdout ++ (handleError e).2 }⟩

/-- The deferred `os.RemoveAll(dir)` from `main`. It runs when `main`
returns normally and during panic unwinding, never across `os.Exit`. -/
def runDefer (st : PipeState) : PipeState :=
  { st with tmpDirRemoved := true }

/-- Go `strings.Split` on a single-character separator. -/
def splitOnChar (c : Char) : List Char → List (List Char)
  | [] => [[]]
  | x :: xs =>
    if x = c then [] :: splitOnChar c xs
    else
      match splitOnChar c xs with
      | [] => [[x]]
      | y :: ys => (x :: y) :: ys

/-- Function `parseImage` from `main.go`: split the argument on `':'`; one part
means the tag defaults to `"latest"`, otherwise the first two parts are
(image, tag). `strings.Split` never returns an empty slice; the `[]` case
is unreachable. -/
def parseImage (arg : List Char) : List Char × List Char :=
  match splitOnChar ':' arg with
  | [p] => (p, "latest".toList)
  | p0 :: p1 :: _ => (p0, p1)
  | [] => ([], [])

/-- Go string slicing `s[i:]`: the tail when `i ≤ len(s)`, otherwise a
runtime panic. -/
def goDrop (s : List Char) (i : Nat) : GoResult (List Char) :=
  if i ≤ s.length then .ok (s.drop i) else .crash "slice bounds out of range"

/-- The local archive filename `fmt.Sprintf("%s.tar.gz", digest[7:])`
computed by `pullLayers`: panics when the digest has fewer than 7
characters. -/
def layerFileName (digest : List Char) : GoResult (List Char) :=
  match goDrop digest 7 with
  | .ok s => .ok (s ++ ".tar.gz".toList)
  | .err e => .err e
  | .crash m => .crash m

/-- Function `getToken` from `main.go`: a transport failure is returned as is; a
non-200 status is `"Error getting token"`; otherwise the body is decoded
and the `token` field returned. -/
def getToken (resp : Transport TokenJson) : Except GoError String :=
  match resp with
  | .failure m => .error (.other m)
  | .response code _ body =>
    if code = 200 then
      match decodeToken body with
      | .error m => .error (.other m)
      | .ok tr => .ok tr.token
    else .error (.other "Error getting token")

/-- Function `getManifest` from `main.go`: a transport failure is returned as is; a
non-200 status produces an error embedding the status line and the raw
response body; otherwise the body is decoded into a `*ManifestResponse`
(possibly nil, see `ManifestJson.null`). -/
def getManifest (resp : Transport (String × ManifestJson)) :
    Except GoError (Option ManifestResponse) :=
  match resp with
  | .failure m => .error (.other m)
  | .response code status body =>
    if code = 200 then
      match decodeManifest body.2 with
      | .error m => .error (.other m)
      | .ok om => .ok om
    else
      .error (.other ("Error getting manifest. Status: " ++ status ++
        ". Response: " ++ body.1))

/-- Function `pullLayers` from `main.go`: GET the blob; a transport failure is
returned as is; a non-200 status is `"Error getting layer"`; otherwise the
file named from `digest[7:]` is created (truncating any previous file of
that name) and the whole body copied into it. Returns the filename and the
content that landed in the file. -/
def pullLayers (w : World) (digest : List Char) :
    GoResult (List Char × LayerContent) :=
  match w.blobResp digest with
  | .failure m => .err (.other m)
  | .response code _ body =>
    if code = 200 then
      match layerFileName digest with
      | .crash m => .crash m
      | .err e => .err e
      | .ok fname =>
        match w.createErr fname with
        | some m => .err (.other m)
        | none =>
          match w.copyErr fname with
          | some m => .err (.other m)
          | none => .ok (fname, body)
    else .err (.other "Error getting layer")

/-- Content of the named file in the working directory: the most recent
`os.Create` of that name wins. -/
def lookupFile (files : List (List Char × LayerContent)) (name : List Char) :
    Option LayerContent :=
  (files.find? (fun e => e.1 = name)).map (·.2)

/-- The first loop of `main`: `pullLayers` per layer descriptor in manifest
order, collecting the returned filenames; the first error aborts the loop.
Each created file is recorded on the front of `files` (`os.Create`
truncates). -/
def downloadLoop (w : World) :
    List Descriptor → PipeState → GoResult (List (List Char)) × PipeState
  | [], st => (.ok [], st)
  | d :: ds, st =>
    let st1 := { st with blobCalls := st.blobCalls ++ [d.digest] }
    match pullLayers w d.digest with
    | .crash m => (.crash m, st1)
    | .err e => (.err e, st1)
    | .ok nc =>
      let st2 := { st1 with files := nc :: st1.files }
      let r := downloadLoop w ds st2
      match r.1 with
      | .ok names => (.ok (nc.1 :: names), r.2)
      | o => (o, r.2)

/-- One `extractTar(layer, dir)` call from the second loop of `main`: the
call is recorded, then the `tar` subprocess either fails or unpacks the
named file's entries onto the temp dir's tree. -/
def extractTarCall (w : World) (src : List Char) (dir : String)
    (st : PipeState) : Option GoError × PipeState :=
  let st1 := { st with extractCalls := st.extractCalls ++ [(src, dir)] }
  match w.tarOutcome src with
  | some e => (some e, st1)
  | none =>
    (none, { st1 with
      dirFs := extractTarFs ((lookupFile st1.files src).getD []) st1.dirFs })

/-- The second loop of `main`: `extractTar` per downloaded archive, in
order, onto the same temp dir; the first error aborts the loop. -/
def extractLoop (w : World) :
    List (List Char) → String → PipeState → Option GoError × PipeState
  | [], _, st => (none, st)
  | l :: ls, dir, st =>
    let r := extractTarCall w l dir st
    match r.1 with
    | some e => (some e, r.2)
    | none => extractLoop w ls dir r.2

/-- Tail of `main` after `createFileSystem` succeeded: launch the user
command (new PID namespace, inherited streams), then `handleError` on a
nonzero exit or start failure, else return normally (running the defer). -/
def launchStage (w : World) (st : PipeState) : RunResult :=
  let st1 := { st with launchCalls := st.launchCalls + 1 }
  match cmdRunResult w.childOutcome with
  | some e => exitWith e st1
  | none => ⟨.exited 0, runDefer { st1 with normalReturn := true }⟩

/-- Tail of `main` from `createFileSystem` (the `syscall.Chroot`): a
chroot failure goes through `handleError`, else the launch follows. -/
def chrootStage (w : World) (st : PipeState) : RunResult :=
  let st1 := { st with chrootCalls := st.chrootCalls + 1 }
  match w.chrootErr with
  | some m => exitWith (.other m) st1
  | none => launchStage w st1

/-- Tail of `main` from the download loop on: downloads, then extraction
onto `dir`, then chroot and launch. A Go panic (short digest) unwinds
through the deferred `os.RemoveAll`. -/
def layersStage (w : World) (dir : String) (manifest : ManifestResponse)
    (st : PipeState) : RunResult :=
  let r := downloadLoop w manifest.layers st
  match r.1 with
  | .crash m => ⟨.panicked m, runDefer r.2⟩
  | .err e => exitWith e r.2
  | .ok names =>
    let r2 := extractLoop w names dir r.2
    match r2.1 with
    | some e => exitWith e r2.2
    | none => chrootStage w r2.2

/-- Function `main` from `main.go`, as a function of the observed `World`:
`os.MkdirTemp`, `defer os.RemoveAll(dir)`, `parseImage`, `getToken`,
`getManifest` (a nil manifest pointer makes the `manifest.Layers` access
panic), the two layer loops, `createFileSystem`, and the launch. -/
def runPipeline (w : World) : RunResult :=
  match w.mkdirTempResult with
  | .error m => exitWith (.other m) {}
  | .ok dir =>
    let _imageTag := parseImage w.imageName
    let st1 : PipeState := { tokenCalls := 1 }
    match getToken w.tokenResp with
    | .error e => exitWith e st1
    | .ok _token =>
      let st2 := { st1 with manifestCalls := 1 }
      match getManifest w.manifestResp with
      | .error e => exitWith e st2
      | .ok none =>
        ⟨.panicked "invalid memory address or nil pointer dereference",
          runDefer st2⟩
      | .ok (some manifest) => layersStage w dir manifest st2

/-! ## Derived notions used to state properties -/

/-- The last content any archive in the list writes for path `p`, with
later archives taking precedence — the reference value for
last-writer-wins. -/
def lastLayerWrite (p : String) : List LayerContent → Option String
  | [] => none
  | es :: L => optOr (lastLayerWrite p L) (lastWrite p es)

/-- Whether `pullLayers` succeeds for this digest in this world. -/
def pullOk (w : World) (digest : List Char) : Bool :=
  match pullLayers w digest with
  | .ok _ => true
  | _ => false

/-- The (filename, file content) a successful `pullLayers` produces. -/
def pulled (w : World) (digest : List Char) : List Char × LayerContent :=
  match pullLayers w digest with
  | .ok nc => nc
  | _ => ([], [])

/-- The working-directory file store after downloading all the layers of
`ds` (most recent `os.Create` first). -/
def downloadedFiles (w : World) (ds : List Descriptor) :
    List (List Char × LayerContent) :=
  (ds.map fun d => pulled w d.digest).reverse

/-- Whether an outcome is a runtime panic. -/
def isPanicOutcome : Outcome → Bool
  | .panicked _ => true
  | .exited _ => false

/-- The pipeline state right after the manifest fetch succeeded: one token
call and one manifest call made, nothing else yet. -/
def initState : PipeState := { tokenCalls := 1, manifestCalls := 1 }

/-- The pipeline state after all layer downloads succeeded: blob requests
in manifest order and the downloaded archives on disk. -/
def postDownloadState (w : World) (ds : List Descriptor) : PipeState :=
  { tokenCalls := 1, manifestCalls := 1,
    blobCalls := ds.map fun d => d.digest,
    files := downloadedFiles w ds }

/-! ## Concrete worlds used by witnesses and counterexamples -/

/-- Entries of the first test layer: writes `/bin/foo` and `/bin/bar`. -/
def entriesA : LayerContent := [("/bin/foo", "A"), ("/bin/bar", "X")]

/-- Entries of the second test layer: overwrites `/bin/foo`. -/
def entriesB : LayerContent := [("/bin/foo", "B")]

/-- First test layer descriptor. -/
def descA : Descriptor := ⟨"mt", 3, "sha256:aaaa".toList⟩

/-- Second test layer descriptor. -/
def descB : Descriptor := ⟨"mt", 3, "sha256:bbbb".toList⟩

/-- A two-layer test manifest. -/
def okManifest : ManifestResponse :=
  ⟨2, "application/vnd.docker.distribution.manifest.v2+json",
    ⟨"cfg", 1, "sha256:cfg0".toList⟩, [descA, descB]⟩

/-- A world where every stage succeeds: two layers, both extract, chroot
succeeds and the user command exits 0. -/
def wOk : World where
  imageName := "alpine".toList
  mkdirTempResult := .ok "/tmp/my-docker-1"
  tokenResp := .response 200 "200 OK" (.fields (some "tok") none none none)
  manifestResp := .response 200 "200 OK" ("{...}", .fields okManifest)
  blobResp := fun d =>
    if d = descA.digest then .response 200 "200 OK" entriesA
    else .response 200 "200 OK" entriesB
  createErr := fun _ => none
  copyErr := fun _ => none
  tarOutcome := fun _ => none
  chrootErr := none
  childOutcome := .exited 0

/-- Like `wOk` but the token endpoint answers 401. -/
def wAuthFail : World := { wOk with tokenResp := .response 401 "401 Unauthorized" (.fields none none none none) }

/-- Like `wOk` but every `tar` subprocess exits with status 2. -/
def wTarFail : World := { wOk with tarOutcome := fun _ => some (.exitError 2) }

/-- Like `wOk` but the manifest endpoint answers 200 with body `null`. -/
def wNullManifest : World := { wOk with manifestResp := .response 200 "200 OK" ("null", .null) }

/-- Like `wOk` but the user command exits with status 3. -/
def wChild3 : World := { wOk with childOutcome := .exited 3 }

/-- A test manifest with zero layers. -/
def emptyManifest : ManifestResponse :=
  ⟨2, "application/vnd.docker.distribution.manifest.v2+json",
    ⟨"cfg", 1, "sha256:cfg0".toList⟩, []⟩

/-- Like `wOk` but the manifest has zero layers. -/
def wEmpty : World :=
  { wOk with manifestResp := .response 200 "200 OK" ("{...}", .fields emptyManifest) }

/-- Like `wOk` but the user command binary cannot be started. -/
def wNoExec : World :=
  { wOk with childOutcome := .startFailure "exec: not found" }

/-! ## Lemmas about `strings.Split` on `':'` -/

theorem splitOnChar_not_mem {c : Char} :
    ∀ {s : List Char}, c ∉ s → splitOnChar c s = [s]
  | [], _ => rfl
  | x :: xs, h => by
    have hx : ¬ x = c := fun e => h (e ▸ List.mem_cons_self x xs)
    have hxs : c ∉ xs := fun m => h (List.mem_cons_of_mem x m)
    simp [splitOnChar, hx, splitOnChar_not_mem hxs]

theorem splitOnChar_append {c : Char} :
    ∀ {a : List Char} (b : List Char), c ∉ a →
      splitOnChar c (a ++ c :: b) = a :: splitOnChar c b
  | [], _, _ => by simp [splitOnChar]
  | x :: xs, b, h => by
    have hx : ¬ x = c := fun e => h (e ▸ List.mem_cons_self x xs)
    have hxs : c ∉ xs := fun m => h (List.mem_cons_of_mem x m)
    simp [splitOnChar, hx, splitOnChar_append (a := xs) b hxs]

example : (runPipeline wOk).outcome = .exited 0 := by decide
example : (runPipeline wOk).st.dirFs =
    [("/bin/foo", "B"), ("/bin/bar", "X"), ("/bin/foo", "A")] := by decide
example : (runPipeline wAuthFail).outcome = .exited 1 := by decide
example : (runPipeline wTarFail).outcome = .exited 2 := by decide
example : (runPipeline wNullManifest).outcome =
    .panicked "invalid memory address or nil pointer dereference" := by decide
example : (runPipeline wChild3).outcome = .exited 3 := by decide

/-! ## Last-writer-wins semantics of sequential extraction -/

theorem optOr_assoc {α : Type} (a b c : Option α) :
    optOr (optOr a b) c = optOr a (optOr b c) := by
  cases a <;> rfl

theorem fsLookup_cons (e : String × String) (fs : FS) (p : String) :
    fsLookup (e :: fs) p =
      optOr (if e.1 = p then some e.2 else none) (fsLookup fs p) := by
  by_cases h : e.1 = p <;> simp [fsLookup, List.find?_cons, h, optOr]

theorem fsLookup_extractTarFs (p : String) :
    ∀ (es : LayerContent) (fs : FS),
      fsLookup (extractTarFs es fs) p =
        optOr (lastWrite p es) (fsLookup fs p)
  | [], _ => rfl
  | e :: es, fs => by
    have ih := fsLookup_extractTarFs p es (e :: fs)
    show fsLookup (extractTarFs es (e :: fs)) p = _
    rw [ih, fsLookup_cons, lastWrite, optOr_assoc]

theorem fsLookup_assembleOnto (p : String) :
    ∀ (L : List LayerContent) (fs : FS),
      fsLookup (assembleOnto L fs) p =
        optOr (lastLayerWrite p L) (fsLookup fs p)
  | [], _ => rfl
  | es :: L, fs => by
    have ih := fsLookup_assembleOnto p L (extractTarFs es fs)
    show fsLookup (assembleOnto L (extractTarFs es fs)) p = _
    rw [ih, fsLookup_extractTarFs, lastLayerWrite, ← optOr_assoc]

theorem fsLookup_assembleRoot (p : String) (L : List LayerContent) :
    fsLookup (assembleRoot L) p = lastLayerWrite p L := by
  rw [assembleRoot, fsLookup_assembleOnto]
  cases lastLayerWrite p L <;> rfl

theorem lastWrite_isSome_eq (p : String) :
    ∀ es : LayerContent, (lastWrite p es).isSome = layerWrites p es
  | [] => rfl
  | e :: es => by
    have ih := lastWrite_isSome_eq p es
    have hcons : layerWrites p (e :: es) =
        (decide (e.1 = p) || layerWrites p es) := rfl
    rw [lastWrite, hcons, ← ih]
    cases hlw : lastWrite p es
    · by_cases h : e.1 = p <;> simp [optOr, h]
    · simp [optOr]

theorem lastWrite_eq_none (p : String) (es : LayerContent)
    (h : layerWrites p es = false) : lastWrite p es = none := by
  have hs := lastWrite_isSome_eq p es
  rw [h] at hs
  cases hlw : lastWrite p es
  · rfl
  · rw [hlw] at hs
    simp at hs

theorem lastLayerWrite_none (p : String) :
    ∀ L : List LayerContent, (∀ es ∈ L, layerWrites p es = false) →
      lastLayerWrite p L = none
  | [], _ => rfl
  | es :: L, h => by
    rw [lastLayerWrite,
      lastLayerWrite_none p L (fun x hx => h x (List.mem_cons_of_mem es hx)),
      lastWrite_eq_none p es (h es (List.mem_cons_self es L))]
    rfl

theorem lastLayerWrite_last_writer (p : String) :
    ∀ (L : List LayerContent) (j : Nat) (hj : j < L.length),
      layerWrites p (L.get ⟨j, hj⟩) = true →
      (∀ k (hk : k < L.length), j < k →
        layerWrites p (L.get ⟨k, hk⟩) = false) →
      lastLayerWrite p L = lastWrite p (L.get ⟨j, hj⟩)
  | es :: L, 0, _, _, hafter => by
    have hnone : lastLayerWrite p L = none := by
      apply lastLayerWrite_none
      intro x hx
      obtain ⟨⟨i, hi⟩, rfl⟩ := List.mem_iff_get.mp hx
      exact hafter (i + 1) (Nat.succ_lt_succ hi) (Nat.succ_pos i)
    rw [lastLayerWrite, hnone]
    rfl
  | es :: L, j + 1, hj, hw, hafter => by
    have hj' : j < L.length := Nat.lt_of_succ_lt_succ hj
    have ih := lastLayerWrite_last_writer p L j hj' hw
      (fun k hk hjk =>
        hafter (k + 1) (Nat.succ_lt_succ hk) (Nat.succ_lt_succ hjk))
    have hsome : (lastWrite p (L.get ⟨j, hj'⟩)).isSome = true := by
      rw [lastWrite_isSome_eq]
      exact hw
    show lastLayerWrite p (es :: L) = lastWrite p (L.get ⟨j, hj'⟩)
    rw [lastLayerWrite, ih]
    cases hlw : lastWrite p (L.get ⟨j, hj'⟩)
    · rw [hlw] at hsome
      simp at hsome
    · rfl

/-! ## Characterizing the pipeline's successful prefix -/

theorem layerFileName_ok {d f : List Char}
    (h : layerFileName d = .ok f) : f = d.drop 7 ++ ".tar.gz".toList := by
  unfold layerFileName goDrop at h
  by_cases hlen : 7 ≤ d.length
  · rw [if_pos hlen] at h
    exact (GoResult.ok.inj h).symm
  · rw [if_neg hlen] at h
    exact GoResult.noConfusion h

theorem pullLayers_ok_name {w : World} {d : List Char}
    {nc : List Char × LayerContent} (h : pullLayers w d = .ok nc) :
    nc.1 = d.drop 7 ++ ".tar.gz".toList := by
  unfold pullLayers at h
  cases hb : w.blobResp d with
  | failure m =>
    rw [hb] at h
    exact GoResult.noConfusion h
  | response code status body =>
    rw [hb] at h
    dsimp only at h
    by_cases hc : code = 200
    · rw [if_pos hc] at h
      cases hf : layerFileName d with
      | crash m =>
        rw [hf] at h
        exact GoResult.noConfusion h
      | err e =>
        rw [hf] at h
        exact GoResult.noConfusion h
      | ok fname =>
        rw [hf] at h
        dsimp only at h
        cases hcr : w.createErr fname with
        | some m =>
          rw [hcr] at h
          exact GoResult.noConfusion h
        | none =>
          rw [hcr] at h
          dsimp only at h
          cases hcp : w.copyErr fname with
          | some m =>
            rw [hcp] at h
            exact GoResult.noConfusion h
          | none =>
            rw [hcp] at h
            dsimp only at h
            rw [← GoResult.ok.inj h]
            exact layerFileName_ok hf
    · rw [if_neg hc] at h
      exact GoResult.noConfusion h

theorem pullLayers_eq_of_ok {w : World} {d : List Char}
    (h : pullOk w d = true) : pullLayers w d = .ok (pulled w d) := by
  unfold pullOk at h
  unfold pulled
  cases hp : pullLayers w d with
  | ok nc => rfl
  | err e => simp [hp] at h
  | crash m => simp [hp] at h

theorem downloadLoop_ok (w : World) :
    ∀ (ds : List Descriptor) (st : PipeState),
      (∀ d ∈ ds, pullOk w d.digest = true) →
      downloadLoop w ds st =
        (.ok (ds.map fun d => (pulled w d.digest).1),
         { st with
            blobCalls := st.blobCalls ++ ds.map fun d => d.digest,
            files := (ds.map fun d => pulled w d.digest).reverse ++ st.files })
  | [], st, _ => by simp [downloadLoop]
  | d :: ds, st, h => by
    have hd := pullLayers_eq_of_ok (h d (List.mem_cons_self d ds))
    have ih := downloadLoop_ok w ds
      { st with blobCalls := st.blobCalls ++ [d.digest],
                files := pulled w d.digest :: st.files }
      (fun x hx => h x (List.mem_cons_of_mem d hx))
    simp only [downloadLoop]
    rw [hd]
    dsimp only
    rw [ih]
    simp [List.reverse_cons, List.append_assoc, List.singleton_append]

theorem assembleOnto_cons (c : LayerContent) (L : List LayerContent)
    (fs : FS) : assembleOnto (c :: L) fs = assembleOnto L (extractTarFs c fs) :=
  rfl

theorem extractTarCall_none {w : World} {src : List Char} {dir : String}
    (st : PipeState) (h : w.tarOutcome src = none) :
    extractTarCall w src dir st =
      (none, { st with
        extractCalls := st.extractCalls ++ [(src, dir)],
        dirFs := extractTarFs ((lookupFile st.files src).getD [])
          st.dirFs }) := by
  unfold extractTarCall
  rw [h]

theorem extractLoop_ok (w : World) (dir : String) :
    ∀ (names : List (List Char)) (st : PipeState),
      (∀ l ∈ names, w.tarOutcome l = none) →
      extractLoop w names dir st =
        (none, { st with
          extractCalls := st.extractCalls ++ names.map fun l => (l, dir),
          dirFs := assembleOnto
            (names.map fun l => (lookupFile st.files l).getD [])
            st.dirFs })
  | [], st, _ => by simp [extractLoop, assembleOnto]
  | l :: ls, st, h => by
    have hl := h l (List.mem_cons_self l ls)
    have ih := extractLoop_ok w dir ls
      { st with extractCalls := st.extractCalls ++ [(l, dir)],
                dirFs := extractTarFs ((lookupFile st.files l).getD [])
                  st.dirFs }
      (fun x hx => h x (List.mem_cons_of_mem l hx))
    simp only [extractLoop]
    rw [extractTarCall_none st hl]
    dsimp only
    rw [ih]
    simp [List.append_assoc, List.singleton_append, assembleOnto_cons]

theorem chrootStage_ok {w : World} (st : PipeState)
    (h : w.chrootErr = none) :
    chrootStage w st =
      launchStage w { st with chrootCalls := st.chrootCalls + 1 } := by
  unfold chrootStage
  rw [h]

theorem chrootStage_err {w : World} (st : PipeState) {m : String}
    (h : w.chrootErr = some m) :
    chrootStage w st =
      ⟨.exited 1,
        { st with
            chrootCalls := st.chrootCalls + 1,
            stdout := st.stdout ++ ["Error " ++ m ++ "\n"] }⟩ := by
  unfold chrootStage
  rw [h]
  rfl

theorem launchStage_exit0 {w : World} (st : PipeState)
    (h : w.childOutcome = .exited 0) :
    launchStage w st =
      ⟨.exited 0,
        { st with
            launchCalls := st.launchCalls + 1,
            normalReturn := true, tmpDirRemoved := true }⟩ := by
  unfold launchStage
  rw [h]
  rfl

theorem launchStage_exit_ne {w : World} (st : PipeState) {k : Int}
    (h : w.childOutcome = .exited k) (hk : k ≠ 0) :
    launchStage w st =
      ⟨.exited k, { st with launchCalls := st.launchCalls + 1 }⟩ := by
  unfold launchStage cmdRunResult
  rw [h]
  dsimp only
  rw [if_neg hk]
  unfold exitWith handleError
  simp

theorem launchStage_startFail {w : World} (st : PipeState) {msg : String}
    (h : w.childOutcome = .startFailure msg) :
    launchStage w st =
      ⟨.exited 1,
        { st with
            launchCalls := st.launchCalls + 1,
            stdout := st.stdout ++ ["Error " ++ msg ++ "\n"] }⟩ := by
  unfold launchStage
  rw [h]
  rfl

/-- A run in which `os.MkdirTemp`, the token exchange, the manifest fetch,
every layer download, and every extraction succeed reaches the chroot
stage with: one token call, one manifest call, one blob request per layer
in manifest order, the downloaded archives in the working directory, one
extraction call per archive in order onto `dir`, and the temp-dir tree
assembled sequentially from the archives. -/
theorem run_success {w : World} {dir tok : String} {m : ManifestResponse}
    (hmk : w.mkdirTempResult = .ok dir)
    (htok : getToken w.tokenResp = .ok tok)
    (hman : getManifest w.manifestResp = .ok (some m))
    (hpull : ∀ d ∈ m.layers, pullOk w d.digest = true)
    (htar : ∀ d ∈ m.layers, w.tarOutcome (pulled w d.digest).1 = none) :
    runPipeline w =
      chrootStage w
        { tokenCalls := 1, manifestCalls := 1,
          blobCalls := m.layers.map fun d => d.digest,
          files := downloadedFiles w m.layers,
          extractCalls := m.layers.map fun d => ((pulled w d.digest).1, dir),
          dirFs := assembleOnto
            ((m.layers.map fun d => (pulled w d.digest).1).map
              fun l => (lookupFile (downloadedFiles w m.layers) l).getD [])
            [] } := by
  have htar' : ∀ l ∈ m.layers.map fun d => (pulled w d.digest).1,
      w.tarOutcome l = none := by
    intro l hl
    obtain ⟨d, hd, rfl⟩ := List.mem_map.mp hl
    exact htar d hd
  unfold runPipeline
  rw [hmk]
  dsimp only
  rw [htok]
  dsimp only
  rw [hman]
  dsimp only
  unfold layersStage
  rw [downloadLoop_ok w m.layers _ hpull]
  dsimp only
  rw [extractLoop_ok w dir _ _ htar']
  dsimp only
  simp [downloadedFiles, List.map_map, Function.comp_def]

/-! ## Working-directory file store lookups -/

theorem lookupFile_of_nodup :
    ∀ (ps : List (List Char × LayerContent)) (k : List Char)
      (v : LayerContent),
      (ps.map Prod.fst).Nodup → (k, v) ∈ ps → lookupFile ps k = some v
  | [], _, _, _, hm => absurd hm (List.not_mem_nil _)
  | p :: ps, k, v, hnd, hm => by
    rw [List.map_cons, List.nodup_cons] at hnd
    rcases List.mem_cons.mp hm with h | h
    · subst h
      simp [lookupFile, List.find?_cons]
    · have hne : ¬ p.1 = k := fun he => hnd.1 (by
        rw [he]
        exact List.mem_map_of_mem Prod.fst h)
      have hstep : lookupFile (p :: ps) k = lookupFile ps k := by
        simp [lookupFile, List.find?_cons, hne]
      rw [hstep]
      exact lookupFile_of_nodup ps k v hnd.2 h

/-- With pairwise-distinct archive filenames, the file the extraction
loop reads for a layer is exactly the content downloaded for that
layer. -/
theorem downloaded_lookup {w : World} {ds : List Descriptor}
    (hnodup : (ds.map fun d => (pulled w d.digest).1).Nodup) :
    ∀ d ∈ ds, lookupFile (downloadedFiles w ds) (pulled w d.digest).1 =
      some (pulled w d.digest).2 := by
  intro d hd
  apply lookupFile_of_nodup
  · rw [downloadedFiles, List.map_reverse]
    apply List.nodup_reverse.mpr
    rw [List.map_map]
    exact hnodup
  · rw [downloadedFiles, List.mem_reverse, Prod.mk.eta]
    exact List.mem_map_of_mem (fun d => pulled w d.digest) hd

/-- With pairwise-distinct archive filenames, the contents looked up by
the extraction loop are the downloaded layer contents, in manifest
order. -/
theorem dirFs_success {w : World} {ds : List Descriptor}
    (hnodup : (ds.map fun d => (pulled w d.digest).1).Nodup) :
    (ds.map fun d => (pulled w d.digest).1).map
        (fun l => (lookupFile (downloadedFiles w ds) l).getD []) =
      ds.map fun d => (pulled w d.digest).2 := by
  rw [List.map_map]
  apply List.map_congr_left
  intro d hd
  show (lookupFile (downloadedFiles w ds) (pulled w d.digest).1).getD [] = _
  rw [downloaded_lookup hnodup d hd]
  rfl

/-! ## Shape lemmas: which state fields each phase can touch -/

theorem downloadLoop_snd (w : World) :
    ∀ (ds : List Descriptor) (st : PipeState), ∃ bc fl,
      (downloadLoop w ds st).2 = { st with blobCalls := bc, files := fl }
  | [], st => ⟨st.blobCalls, st.files, rfl⟩
  | d :: ds, st => by
    cases hp : pullLayers w d.digest with
    | crash m =>
      exact ⟨st.blobCalls ++ [d.digest], st.files, by simp [downloadLoop, hp]⟩
    | err e =>
      exact ⟨st.blobCalls ++ [d.digest], st.files, by simp [downloadLoop, hp]⟩
    | ok nc =>
      obtain ⟨bc, fl, hih⟩ := downloadLoop_snd w ds
        { st with blobCalls := st.blobCalls ++ [d.digest],
                  files := nc :: st.files }
      refine ⟨bc, fl, ?_⟩
      simp only [downloadLoop, hp]
      try dsimp only
      cases hr : (downloadLoop w ds
          { st with blobCalls := st.blobCalls ++ [d.digest],
                    files := nc :: st.files }).1 <;>
        simp [hr, hih]

theorem extractLoop_snd (w : World) (dir : String) :
    ∀ (names : List (List Char)) (st : PipeState), ∃ ec fsv,
      (extractLoop w names dir st).2 =
        { st with extractCalls := ec, dirFs := fsv }
  | [], st => ⟨st.extractCalls, st.dirFs, rfl⟩
  | l :: ls, st => by
    cases ht : w.tarOutcome l with
    | some e =>
      refine ⟨st.extractCalls ++ [(l, dir)], st.dirFs, ?_⟩
      simp [extractLoop, extractTarCall, ht]
    | none =>
      obtain ⟨ec, fsv, hih⟩ := extractLoop_snd w dir ls
        { st with extractCalls := st.extractCalls ++ [(l, dir)],
                  dirFs := extractTarFs ((lookupFile st.files l).getD [])
                    st.dirFs }
      refine ⟨ec, fsv, ?_⟩
      simp only [extractLoop]
      rw [extractTarCall_none st ht]
      dsimp only
      rw [hih]

/-! ## The error values each stage can produce -/

theorem getToken_error_other {r : Transport TokenJson} {e : GoError}
    (h : getToken r = .error e) : ∃ s, e = .other s := by
  unfold getToken at h
  cases r with
  | failure m => exact ⟨m, (Except.error.inj h).symm⟩
  | response c s b =>
    dsimp only at h
    by_cases hc : c = 200
    · rw [if_pos hc] at h
      cases hb : decodeToken b with
      | error m =>
        rw [hb] at h
        exact ⟨m, (Except.error.inj h).symm⟩
      | ok tr =>
        rw [hb] at h
        exact Except.noConfusion h
    · rw [if_neg hc] at h
      exact ⟨"Error getting token", (Except.error.inj h).symm⟩

theorem getManifest_error_other {r : Transport (String × ManifestJson)}
    {e : GoError} (h : getManifest r = .error e) : ∃ s, e = .other s := by
  unfold getManifest at h
  cases r with
  | failure m => exact ⟨m, (Except.error.inj h).symm⟩
  | response c s b =>
    dsimp only at h
    by_cases hc : c = 200
    · rw [if_pos hc] at h
      cases hb : decodeManifest b.2 with
      | error m =>
        rw [hb] at h
        exact ⟨m, (Except.error.inj h).symm⟩
      | ok om =>
        rw [hb] at h
        exact Except.noConfusion h
    · rw [if_neg hc] at h
      exact ⟨_, (Except.error.inj h).symm⟩

theorem pullLayers_err_other {w : World} {d : List Char} {e : GoError}
    (h : pullLayers w d = .err e) : ∃ s, e = .other s := by
  unfold pullLayers at h
  cases hb : w.blobResp d with
  | failure m =>
    rw [hb] at h
    exact ⟨m, (GoResult.err.inj h).symm⟩
  | response code status body =>
    rw [hb] at h
    dsimp only at h
    by_cases hc : code = 200
    · rw [if_pos hc] at h
      cases hf : layerFileName d with
      | crash m =>
        rw [hf] at h
        exact GoResult.noConfusion h
      | err e2 =>
        rw [hf] at h
        dsimp only at h
        exact absurd hf (by
          unfold layerFileName goDrop
          by_cases hl : 7 ≤ d.length
          · rw [if_pos hl]
            exact fun hx => GoResult.noConfusion hx
          · rw [if_neg hl]
            exact fun hx => GoResult.noConfusion hx)
      | ok fname =>
        rw [hf] at h
        dsimp only at h
        cases hcr : w.createErr fname with
        | some m =>
          rw [hcr] at h
          exact ⟨m, (GoResult.err.inj h).symm⟩
        | none =>
          rw [hcr] at h
          dsimp only at h
          cases hcp : w.copyErr fname with
          | some m =>
            rw [hcp] at h
            exact ⟨m, (GoResult.err.inj h).symm⟩
          | none =>
            rw [hcp] at h
            exact GoResult.noConfusion h
    · rw [if_neg hc] at h
      exact ⟨_, (GoResult.err.inj h).symm⟩

theorem downloadLoop_err_other (w : World) :
    ∀ (ds : List Descriptor) (st : PipeState) (e : GoError),
      (downloadLoop w ds st).1 = .err e → ∃ s, e = .other s
  | [], _, _, h => GoResult.noConfusion h
  | d :: ds, st, e, h => by
    rw [downloadLoop] at h
    cases hp : pullLayers w d.digest with
    | crash m =>
      rw [hp] at h
      exact GoResult.noConfusion h
    | err e2 =>
      rw [hp] at h
      try dsimp only at h
      exact (GoResult.err.inj h) ▸ pullLayers_err_other hp
    | ok nc =>
      rw [hp] at h
      try dsimp only at h
      cases hr : (downloadLoop w ds
          { st with blobCalls := st.blobCalls ++ [d.digest],
                    files := nc :: st.files }).1 with
      | ok names =>
        rw [hr] at h
        exact GoResult.noConfusion h
      | err e2 =>
        rw [hr] at h
        try dsimp only at h
        exact (GoResult.err.inj h) ▸ downloadLoop_err_other w ds _ e2 hr
      | crash m =>
        rw [hr] at h
        exact GoResult.noConfusion h

/-! ## Decomposition and flag lemmas for the run as a whole -/

theorem run_to_layers {w : World} {dir tok : String} {m : ManifestResponse}
    (hmk : w.mkdirTempResult = .ok dir)
    (htok : getToken w.tokenResp = .ok tok)
    (hman : getManifest w.manifestResp = .ok (some m)) :
    runPipeline w = layersStage w dir m initState := by
  unfold runPipeline
  rw [hmk]
  dsimp only
  rw [htok]
  dsimp only
  rw [hman]
  rfl

theorem launchStage_flags {w : World} {st : PipeState}
    (h1 : st.tmpDirRemoved = false) (h2 : st.normalReturn = false) :
    (launchStage w st).st.tmpDirRemoved =
      ((launchStage w st).st.normalReturn ||
        isPanicOutcome (launchStage w st).outcome) := by
  cases ho : w.childOutcome with
  | exited k =>
    by_cases hk : k = 0
    · subst hk
      rw [launchStage_exit0 st ho]
      simp [isPanicOutcome]
    · rw [launchStage_exit_ne st ho hk]
      simp [isPanicOutcome, h1, h2]
  | startFailure msg =>
    rw [launchStage_startFail st ho]
    simp [isPanicOutcome, h1, h2]

theorem chrootStage_flags {w : World} {st : PipeState}
    (h1 : st.tmpDirRemoved = false) (h2 : st.normalReturn = false) :
    (chrootStage w st).st.tmpDirRemoved =
      ((chrootStage w st).st.normalReturn ||
        isPanicOutcome (chrootStage w st).outcome) := by
  cases hc : w.chrootErr with
  | some m =>
    rw [chrootStage_err st hc]
    simp [isPanicOutcome, h1, h2]
  | none =>
    rw [chrootStage_ok st hc]
    exact launchStage_flags h1 h2

theorem layersStage_flags {w : World} {dir : String} {m : ManifestResponse}
    {st : PipeState} (h1 : st.tmpDirRemoved = false)
    (h2 : st.normalReturn = false) :
    (layersStage w dir m st).st.tmpDirRemoved =
      ((layersStage w dir m st).st.normalReturn ||
        isPanicOutcome (layersStage w dir m st).outcome) := by
  unfold layersStage
  dsimp only
  obtain ⟨bc, fl, hdl⟩ := downloadLoop_snd w m.layers st
  cases hr : (downloadLoop w m.layers st).1 with
  | crash msg => simp [hdl, runDefer, isPanicOutcome]
  | err e => simp [hdl, exitWith, isPanicOutcome, h1, h2]
  | ok names =>
    dsimp only
    obtain ⟨ec, fsv, hel⟩ :=
      extractLoop_snd w dir names (downloadLoop w m.layers st).2
    cases he : (extractLoop w names dir (downloadLoop w m.layers st).2).1 with
    | some e =>
      dsimp only
      rw [hel, hdl]
      simp [exitWith, isPanicOutcome, h1, h2]
    | none =>
      dsimp only
      apply chrootStage_flags
      · rw [hel, hdl]
        exact h1
      · rw [hel, hdl]
        exact h2

/-- The deferred `os.RemoveAll(dir)` runs exactly when `main` returns
normally or unwinds through a panic — never when a failure path calls
`os.Exit`. -/
theorem tmpdir_removed_iff (w : World) :
    (runPipeline w).st.tmpDirRemoved =
      ((runPipeline w).st.normalReturn ||
        isPanicOutcome (runPipeline w).outcome) := by
  unfold runPipeline
  cases hmk : w.mkdirTempResult with
  | error m => simp [exitWith, isPanicOutcome]
  | ok dir =>
    dsimp only
    cases htok : getToken w.tokenResp with
    | error e => simp [exitWith, isPanicOutcome]
    | ok tok =>
      dsimp only
      cases hman : getManifest w.manifestResp with
      | error e => simp [exitWith, isPanicOutcome]
      | ok om =>
        cases om with
        | none => simp [runDefer, isPanicOutcome]
        | some m =>
          dsimp only
          exact layersStage_flags rfl rfl

theorem launchStage_preserves (w : World) (st : PipeState) :
    (launchStage w st).st.dirFs = st.dirFs ∧
    (launchStage w st).st.extractCalls = st.extractCalls ∧
    (launchStage w st).st.files = st.files ∧
    (launchStage w st).st.blobCalls = st.blobCalls ∧
    (launchStage w st).st.chrootCalls = st.chrootCalls ∧
    (launchStage w st).st.launchCalls = st.launchCalls + 1 := by
  unfold launchStage
  cases cmdRunResult w.childOutcome with
  | some e => simp [exitWith]
  | none => simp [runDefer]

theorem chrootStage_preserves (w : World) (st : PipeState) :
    (chrootStage w st).st.dirFs = st.dirFs ∧
    (chrootStage w st).st.extractCalls = st.extractCalls ∧
    (chrootStage w st).st.files = st.files ∧
    (chrootStage w st).st.blobCalls = st.blobCalls ∧
    (chrootStage w st).st.chrootCalls = st.chrootCalls + 1 := by
  unfold chrootStage
  cases w.chrootErr with
  | some m => simp [exitWith]
  | none =>
    have h := launchStage_preserves w { st with chrootCalls := st.chrootCalls + 1 }
    dsimp only
    exact ⟨h.1, h.2.1, h.2.2.1, h.2.2.2.1, h.2.2.2.2.1⟩

theorem chrootStage_launch (w : World) (st : PipeState)
    (h : w.chrootErr = none) :
    (chrootStage w st).st.launchCalls = st.launchCalls + 1 := by
  rw [chrootStage_ok st h]
  exact (launchStage_preserves w _).2.2.2.2.2

/-! ## C9: image reference parsing -/

/-- C9: for every image reference token of the form `name[:tag]` (neither
part containing `':'`), parsing yields the repository name and the given
tag; with no tag the resolved tag is `"latest"`; in particular `"alpine"`
parses to tag `"latest"`. -/
theorem C9_parseImage :
    (∀ name : List Char, ':' ∉ name →
      parseImage name = (name, "latest".toList)) ∧
    (∀ name tag : List Char, ':' ∉ name → ':' ∉ tag →
      parseImage (name ++ ':' :: tag) = (name, tag)) ∧
    parseImage "alpine".toList = ("alpine".toList, "latest".toList) := by
  refine ⟨fun name h => ?_, fun name tag hn ht => ?_, by decide⟩
  · simp [parseImage, splitOnChar_not_mem h]
  · simp [parseImage, splitOnChar_append tag hn, splitOnChar_not_mem ht]

/-- C9 witness: `"busybox:1.36"` parses to `("busybox", "1.36")`. -/
theorem C9_parseImage_witness :
    parseImage ("busybox".toList ++ ':' :: "1.36".toList) =
      ("busybox".toList, "1.36".toList) :=
  C9_parseImage.2.1 "busybox".toList "1.36".toList (by decide) (by decide)

/-! ## C5: token exchange -/

/-- C5 counterexample: the token endpoint answers 200 with the decodable
JSON body `{}` that contains no token field, yet `getToken` succeeds
(returning the zero-value empty token) — refuting "succeeds only when the
body contains at least a token field". -/
theorem C5_counterexample :
    getToken (.response 200 "200 OK" (.fields none none none none)) =
      .ok "" := rfl

/-- C5 amended: `getToken` succeeds exactly on a 200 response whose body
decodes (a missing token field is not rejected: the token defaults to the
empty string); a non-200 status, a transport failure, and a malformed body
each produce an error; and a non-200 token response makes the pipeline
exit 1 with a stdout message and zero manifest, blob, or extraction
calls. -/
theorem C5_getToken_amended :
    (∀ s t a e i, getToken (.response 200 s (.fields t a e i)) =
      .ok (t.getD "")) ∧
    (∀ s c (b : TokenJson), c ≠ 200 →
      getToken (.response c s b) = .error (.other "Error getting token")) ∧
    (∀ m, getToken (.failure m) = .error (.other m)) ∧
    (∀ s m, getToken (.response 200 s (.malformed m)) =
      .error (.other m)) ∧
    (∀ (w : World) dir s c b, w.mkdirTempResult = .ok dir →
      w.tokenResp = .response c s b → c ≠ 200 →
      (runPipeline w).outcome = .exited 1 ∧
      (runPipeline w).st.stdout = ["Error Error getting token\n"] ∧
      (runPipeline w).st.manifestCalls = 0 ∧
      (runPipeline w).st.blobCalls = [] ∧
      (runPipeline w).st.extractCalls = []) := by
  refine ⟨fun s t a e i => rfl, fun s c b hc => by simp [getToken, hc],
    fun m => rfl, fun s m => rfl, fun w dir s c b hmk htok hc => ?_⟩
  simp [runPipeline, hmk, htok, getToken, hc, exitWith, handleError]

/-- C5 witness: in the concrete world whose token endpoint answers 401, the
pipeline exits 1 with a message and makes no further calls. -/
theorem C5_getToken_amended_witness :
    (runPipeline wAuthFail).outcome = .exited 1 ∧
    (runPipeline wAuthFail).st.stdout = ["Error Error getting token\n"] ∧
    (runPipeline wAuthFail).st.manifestCalls = 0 ∧
    (runPipeline wAuthFail).st.blobCalls = [] ∧
    (runPipeline wAuthFail).st.extractCalls = [] :=
  C5_getToken_amended.2.2.2.2 wAuthFail "/tmp/my-docker-1" "401 Unauthorized"
    401 (.fields none none none none) rfl rfl (by decide)

/-! ## C4: manifest retrieval -/

/-- C4 (code bug): a 200 manifest response whose body is the JSON literal
`null` decodes without error into a nil `*ManifestResponse`, so
`getManifest` returns success with no manifest value; `main` then
dereferences `manifest.Layers` and the process panics instead of failing
with a manifest error. The pipeline also prints no error message on this
path. -/
theorem C4_nullManifest_bug :
    getManifest (.response 200 "200 OK" ("null", .null)) = .ok none ∧
    (runPipeline wNullManifest).outcome =
      .panicked "invalid memory address or nil pointer dereference" ∧
    (runPipeline wNullManifest).st.stdout = [] :=
  ⟨rfl, by decide, by decide⟩

/-! ## C7: layer download -/

/-- C7: a non-200 blob response is a download error; on a 200 response for
a digest of the `sha256:` algorithm, the whole response body is written to
a local file named from the digest with the algorithm prefix stripped and
`.tar.gz` appended, and that filename is returned. -/
theorem C7_pullLayers :
    (∀ (w : World) digest s c b, w.blobResp digest = .response c s b →
      c ≠ 200 →
      pullLayers w digest = .err (.other "Error getting layer")) ∧
    (∀ (w : World) (rest : List Char) s (body : LayerContent),
      w.blobResp ("sha256:".toList ++ rest) = .response 200 s body →
      w.createErr (rest ++ ".tar.gz".toList) = none →
      w.copyErr (rest ++ ".tar.gz".toList) = none →
      pullLayers w ("sha256:".toList ++ rest) =
        .ok (rest ++ ".tar.gz".toList, body)) := by
  constructor
  · intro w digest s c b hresp hc
    simp [pullLayers, hresp, hc]
  · intro w rest s body hresp hcreate hcopy
    have hdrop : ("sha256:".toList ++ rest).drop 7 = rest := by
      rw [show (7 : Nat) = "sha256:".toList.length from rfl, List.drop_left]
    have hlen : 7 ≤ ("sha256:".toList ++ rest).length := by
      rw [List.length_append]
      exact Nat.le_add_right 7 rest.length
    have hfile : layerFileName ("sha256:".toList ++ rest) =
        .ok (rest ++ ".tar.gz".toList) := by
      unfold layerFileName goDrop
      rw [if_pos hlen, hdrop]
    show (match w.blobResp ("sha256:".toList ++ rest) with
      | .failure m => GoResult.err (.other m)
      | .response code _ body =>
        if code = 200 then
          match layerFileName ("sha256:".toList ++ rest) with
          | .crash m => .crash m
          | .err e => .err e
          | .ok fname =>
            match w.createErr fname with
            | some m => .err (.other m)
            | none =>
              match w.copyErr fname with
              | some m => .err (.other m)
              | none => .ok (fname, body)
        else .err (.other "Error getting layer")) =
      GoResult.ok (rest ++ ".tar.gz".toList, body)
    rw [hresp]
    dsimp only
    rw [if_pos rfl, hfile]
    dsimp only
    rw [hcreate]
    dsimp only
    rw [hcopy]

/-- C7 witness: downloading the first test layer in the all-success world
writes the blob body to `aaaa.tar.gz` and returns that name. -/
theorem C7_pullLayers_witness :
    pullLayers wOk ("sha256:".toList ++ "aaaa".toList) =
      .ok ("aaaa".toList ++ ".tar.gz".toList, entriesA) :=
  C7_pullLayers.2 wOk "aaaa".toList "200 OK" entriesA rfl rfl rfl

/-! ## C10: digest slicing -/

/-- C10: building the local archive filename slices exactly the first 7
characters off the digest, so a 200 blob response for a digest shorter
than 7 characters makes `pullLayers` panic with a slice-bounds error
rather than return an error; for digests of length at least 7 the name is
`digest[7:] + ".tar.gz"`; and for an algorithm whose prefix is not 7
characters the stripped name is wrong — for `md5:abcd` the code produces
`d.tar.gz`, not the hex part `abcd` with `.tar.gz` appended. -/
theorem C10_digestSlice :
    (∀ (w : World) (digest : List Char) s b, digest.length < 7 →
      w.blobResp digest = .response 200 s b →
      pullLayers w digest = .crash "slice bounds out of range") ∧
    (∀ digest : List Char, 7 ≤ digest.length →
      layerFileName digest = .ok (digest.drop 7 ++ ".tar.gz".toList)) ∧
    (layerFileName "md5:abcd".toList = .ok "d.tar.gz".toList ∧
      "d.tar.gz".toList ≠ "abcd".toList ++ ".tar.gz".toList) := by
  refine ⟨fun w digest s b hlen hresp => ?_, fun digest hlen => ?_,
    by decide, by decide⟩
  · simp [pullLayers, hresp, layerFileName, goDrop, Nat.not_le.mpr hlen]
  · simp [layerFileName, goDrop, hlen]

/-- C10 witness: the 6-character digest `sha:xx` panics the download in
the all-success world, and an 11-character digest gets its first 7
characters sliced off. -/
theorem C10_digestSlice_witness :
    pullLayers wOk "sha:xx".toList = .crash "slice bounds out of range" ∧
    layerFileName "sha256:aaaa".toList =
      .ok ("sha256:aaaa".toList.drop 7 ++ ".tar.gz".toList) :=
  ⟨C10_digestSlice.1 wOk "sha:xx".toList "200 OK" entriesB (by decide) rfl,
    C10_digestSlice.2.1 "sha256:aaaa".toList (by decide)⟩

/-! ## C1: extraction count, order and last-writer-wins -/

/-- C1: in a run whose stages through extraction all succeed (with
pairwise-distinct archive filenames, per the spec's digest-uniqueness
invariant), extraction is invoked exactly once per manifest layer
descriptor — `N` calls for `N` descriptors — in manifest order, each onto
the same destination directory; the final tree is the sequential
application of the layer contents in that order; and for a path written
by layers `i` and `j` with `i < j` where `j` is the last layer writing
it, the final tree holds layer `j`'s content for that path. -/
theorem C1_extraction_order {w : World} {dir tok : String}
    {m : ManifestResponse}
    (hmk : w.mkdirTempResult = .ok dir)
    (htok : getToken w.tokenResp = .ok tok)
    (hman : getManifest w.manifestResp = .ok (some m))
    (hpull : ∀ d ∈ m.layers, pullOk w d.digest = true)
    (htar : ∀ d ∈ m.layers, w.tarOutcome (pulled w d.digest).1 = none)
    (hnodup : (m.layers.map fun d => (pulled w d.digest).1).Nodup) :
    (runPipeline w).st.extractCalls =
      m.layers.map (fun d => ((pulled w d.digest).1, dir)) ∧
    (runPipeline w).st.extractCalls.length = m.layers.length ∧
    (runPipeline w).st.dirFs =
      assembleRoot (m.layers.map fun d => (pulled w d.digest).2) ∧
    (∀ (p : String) (i j : Nat) (hi : i < m.layers.length)
        (hj : j < m.layers.length), i < j →
      layerWrites p (pulled w (m.layers.get ⟨i, hi⟩).digest).2 = true →
      layerWrites p (pulled w (m.layers.get ⟨j, hj⟩).digest).2 = true →
      (∀ k (hk : k < m.layers.length), j < k →
        layerWrites p (pulled w (m.layers.get ⟨k, hk⟩).digest).2 = false) →
      fsLookup (runPipeline w).st.dirFs p =
        lastWrite p (pulled w (m.layers.get ⟨j, hj⟩).digest).2) := by
  have hrun := run_success hmk htok hman hpull htar
  have hcalls : (runPipeline w).st.extractCalls =
      m.layers.map fun d => ((pulled w d.digest).1, dir) := by
    rw [hrun, (chrootStage_preserves w _).2.1]
  have hfs : (runPipeline w).st.dirFs =
      assembleRoot (m.layers.map fun d => (pulled w d.digest).2) := by
    rw [hrun, (chrootStage_preserves w _).1]
    show assembleOnto _ [] = _
    rw [dirFs_success hnodup]
    rfl
  refine ⟨hcalls, by rw [hcalls, List.length_map], hfs, ?_⟩
  intro p i j hi hj hij hwi hwj hafter
  have hlen : (m.layers.map fun d => (pulled w d.digest).2).length =
      m.layers.length := List.length_map _ _
  have hjL : j < (m.layers.map fun d => (pulled w d.digest).2).length := by
    rw [hlen]
    exact hj
  have hgetj : (m.layers.map fun d => (pulled w d.digest).2).get ⟨j, hjL⟩ =
      (pulled w (m.layers.get ⟨j, hj⟩).digest).2 := by
    simp [List.get_eq_getElem]
  rw [hfs, fsLookup_assembleRoot, ← hgetj]
  apply lastLayerWrite_last_writer
  · rw [hgetj]
    exact hwj
  · intro k hk hjk
    have hk' : k < m.layers.length := by
      rw [← hlen]
      exact hk
    have hgetk : (m.layers.map fun d => (pulled w d.digest).2).get ⟨k, hk⟩ =
        (pulled w (m.layers.get ⟨k, hk'⟩).digest).2 := by
      simp [List.get_eq_getElem]
    rw [hgetk]
    exact hafter k hk' hjk

/-- C1 witness: in the concrete two-layer world, extraction runs twice in
manifest order onto the temp dir, and `/bin/foo` — written `"A"` by layer
one and `"B"` by layer two — reads `"B"` in the final tree. -/
theorem C1_extraction_order_witness :
    (runPipeline wOk).st.extractCalls =
      [("aaaa.tar.gz".toList, "/tmp/my-docker-1"),
       ("bbbb.tar.gz".toList, "/tmp/my-docker-1")] ∧
    fsLookup (runPipeline wOk).st.dirFs "/bin/foo" = some "B" := by
  have h := @C1_extraction_order wOk "/tmp/my-docker-1" "tok" okManifest
    rfl rfl rfl (by decide) (by decide) (by decide)
  constructor
  · rw [h.1]
    decide
  · have hl := h.2.2.2 "/bin/foo" 0 1 (by decide) (by decide) (by decide)
      (by decide) (by decide)
      (fun k hk hjk => absurd hk (Nat.not_lt.mpr hjk))
    rw [hl]
    decide

/-! ## C8: zero-layer manifest -/

/-- C8: for a manifest whose layer sequence is empty, no blob is fetched,
no extraction happens, the assembled root is the empty tree, and the
isolation (chroot) and launch stages still execute. -/
theorem C8_empty_manifest {w : World} {dir tok : String}
    {m : ManifestResponse}
    (hmk : w.mkdirTempResult = .ok dir)
    (htok : getToken w.tokenResp = .ok tok)
    (hman : getManifest w.manifestResp = .ok (some m))
    (hlayers : m.layers = [])
    (hchroot : w.chrootErr = none) :
    (runPipeline w).st.dirFs = [] ∧
    (runPipeline w).st.extractCalls = [] ∧
    (runPipeline w).st.blobCalls = [] ∧
    (runPipeline w).st.chrootCalls = 1 ∧
    (runPipeline w).st.launchCalls = 1 := by
  have hrun := run_success hmk htok hman
    (by
      rw [hlayers]
      intro d hd
      exact absurd hd (List.not_mem_nil d))
    (by
      rw [hlayers]
      intro d hd
      exact absurd hd (List.not_mem_nil d))
  rw [hlayers] at hrun
  refine ⟨?_, ?_, ?_, ?_, ?_⟩
  · rw [hrun, (chrootStage_preserves w _).1]
    rfl
  · rw [hrun, (chrootStage_preserves w _).2.1]
    rfl
  · rw [hrun, (chrootStage_preserves w _).2.2.2.1]
    rfl
  · rw [hrun, (chrootStage_preserves w _).2.2.2.2]
  · rw [hrun, chrootStage_launch w _ hchroot]

/-- C8 witness: the concrete zero-layer world assembles an empty root and
still performs the chroot and the launch. -/
theorem C8_empty_manifest_witness :
    (runPipeline wEmpty).st.dirFs = [] ∧
    (runPipeline wEmpty).st.extractCalls = [] ∧
    (runPipeline wEmpty).st.blobCalls = [] ∧
    (runPipeline wEmpty).st.chrootCalls = 1 ∧
    (runPipeline wEmpty).st.launchCalls = 1 :=
  @C8_empty_manifest wEmpty "/tmp/my-docker-1" "tok" emptyManifest
    rfl rfl rfl rfl rfl

/-! ## C6: exit-status propagation vs. start failure -/

/-- C6: when all pipeline stages succeed and the user command starts and
exits with status `k`, the pipeline's own outcome is exit status `k`, with
no pipeline error message — propagation, not wrapping (this includes
nonzero `k`, which is not treated as a pipeline error). When the command
cannot be started at all, the run instead exits 1 with an error message —
distinct from the propagation of a normal nonzero exit. -/
theorem C6_exec_propagation {w : World} {dir tok : String}
    {m : ManifestResponse}
    (hmk : w.mkdirTempResult = .ok dir)
    (htok : getToken w.tokenResp = .ok tok)
    (hman : getManifest w.manifestResp = .ok (some m))
    (hpull : ∀ d ∈ m.layers, pullOk w d.digest = true)
    (htar : ∀ d ∈ m.layers, w.tarOutcome (pulled w d.digest).1 = none)
    (hchroot : w.chrootErr = none) :
    (∀ k : Int, w.childOutcome = .exited k →
      (runPipeline w).outcome = .exited k ∧
      (runPipeline w).st.stdout = []) ∧
    (∀ msg : String, w.childOutcome = .startFailure msg →
      (runPipeline w).outcome = .exited 1 ∧
      (runPipeline w).st.stdout = ["Error " ++ msg ++ "\n"]) := by
  have hrun := run_success hmk htok hman hpull htar
  rw [hrun, chrootStage_ok _ hchroot]
  constructor
  · intro k hk
    by_cases hk0 : k = 0
    · subst hk0
      rw [launchStage_exit0 _ hk]
      exact ⟨rfl, rfl⟩
    · rw [launchStage_exit_ne _ hk hk0]
      exact ⟨rfl, rfl⟩
  · intro msg hmsg
    rw [launchStage_startFail _ hmsg]
    exact ⟨rfl, rfl⟩

/-- C6 witness: in the concrete world whose user command exits with
status 3, the pipeline exits with status 3 and prints nothing; in the
concrete world whose command cannot be started, it exits 1 with a
message. -/
theorem C6_exec_propagation_witness :
    ((runPipeline wChild3).outcome = .exited 3 ∧
      (runPipeline wChild3).st.stdout = []) ∧
    ((runPipeline wNoExec).outcome = .exited 1 ∧
      (runPipeline wNoExec).st.stdout = ["Error exec: not found\n"]) :=
  ⟨(@C6_exec_propagation wChild3 "/tmp/my-docker-1" "tok" okManifest
      rfl rfl rfl (by decide) (by decide) rfl).1 3 rfl,
    (@C6_exec_propagation wNoExec "/tmp/my-docker-1" "tok" okManifest
      rfl rfl rfl (by decide) (by decide) rfl).2 "exec: not found" rfl⟩

/-! ## C3: cleanup of the temp dir and the layer archives -/

/-- C3 counterexample: in the fully successful concrete run both layer
archive files are still on disk when the pipeline ends (the code never
removes them), and on the auth-failure path the ephemeral root directory
is not removed (`os.Exit` skips the deferred removal) — refuting "on
every exit path the root directory is removed and every per-layer archive
is removed by pipeline end". -/
theorem C3_cleanup_counterexample :
    (runPipeline wOk).outcome = .exited 0 ∧
    (runPipeline wOk).st.files =
      [("bbbb.tar.gz".toList, entriesB), ("aaaa.tar.gz".toList, entriesA)] ∧
    (runPipeline wAuthFail).st.tmpDirRemoved = false := by
  decide

/-- C3 amended: the deferred removal of the ephemeral root directory runs
exactly when `main` returns normally or unwinds through a panic — every
failure path exits through `os.Exit`, which skips it; and the per-layer
archive files are never removed: a run whose stages through extraction
all succeed ends with every downloaded archive still in the working
directory. -/
theorem C3_cleanup_amended :
    (∀ w : World, (runPipeline w).st.tmpDirRemoved =
      ((runPipeline w).st.normalReturn ||
        isPanicOutcome (runPipeline w).outcome)) ∧
    (∀ (w : World) (dir tok : String) (m : ManifestResponse),
      w.mkdirTempResult = .ok dir →
      getToken w.tokenResp = .ok tok →
      getManifest w.manifestResp = .ok (some m) →
      (∀ d ∈ m.layers, pullOk w d.digest = true) →
      (∀ d ∈ m.layers, w.tarOutcome (pulled w d.digest).1 = none) →
      (runPipeline w).st.files = downloadedFiles w m.layers) := by
  refine ⟨tmpdir_removed_iff, ?_⟩
  intro w dir tok m hmk htok hman hpull htar
  rw [run_success hmk htok hman hpull htar,
    (chrootStage_preserves w _).2.2.1]

/-- C3 amended witness: the successful concrete run ends with the two
downloaded archives still present, and on the auth-failure world the
removal flag matches the normal-return/panic condition. -/
theorem C3_cleanup_amended_witness :
    (runPipeline wOk).st.files = downloadedFiles wOk okManifest.layers ∧
    (runPipeline wAuthFail).st.tmpDirRemoved =
      ((runPipeline wAuthFail).st.normalReturn ||
        isPanicOutcome (runPipeline wAuthFail).outcome) :=
  ⟨C3_cleanup_amended.2 wOk "/tmp/my-docker-1" "tok" okManifest rfl rfl rfl
      (by decide) (by decide),
    C3_cleanup_amended.1 wAuthFail⟩

/-! ## C2: exit codes and error-message stream -/

/-- C2 counterexample: when `tar` fails with exit status 2 the pipeline
exits 2, not 1, and prints no message at all (`handleError` propagates
any `exec.ExitError` — including `tar`'s — silently); and on the
auth-failure world the error message goes to standard output while the
error stream stays empty — refuting "exit 1 for every stage failure with
a message on the error stream". -/
theorem C2_exit_code_counterexample :
    ¬ (runPipeline wTarFail).outcome = .exited 1 ∧
    (runPipeline wTarFail).outcome = .exited 2 ∧
    (runPipeline wTarFail).st.stdout = [] ∧
    (runPipeline wTarFail).st.stderr = [] ∧
    (runPipeline wAuthFail).outcome = .exited 1 ∧
    (runPipeline wAuthFail).st.stdout = ["Error Error getting token\n"] ∧
    (runPipeline wAuthFail).st.stderr = [] := by
  decide

/-- C2 amended: the process's exit code equals the launched command's
exit code when the command starts and terminates normally; a temp-dir,
auth, manifest, download, or isolation failure exits 1 with a
human-readable message on STANDARD OUTPUT (the process writes nothing to
its error stream); an extraction failure goes through `handleError` on
the `tar` subprocess's error, so a `tar` nonzero exit status is
propagated as the pipeline's exit code with no message, and any other
extraction error exits 1 with a stdout message. -/
theorem C2_exit_code_amended :
    (∀ (w : World) (msg : String), w.mkdirTempResult = .error msg →
      (runPipeline w).outcome = .exited 1 ∧
      (runPipeline w).st.stdout = ["Error " ++ msg ++ "\n"] ∧
      (runPipeline w).st.stderr = []) ∧
    (∀ (w : World) (dir : String) (e : GoError),
      w.mkdirTempResult = .ok dir → getToken w.tokenResp = .error e →
      ∃ s, e = .other s ∧
        (runPipeline w).outcome = .exited 1 ∧
        (runPipeline w).st.stdout = ["Error " ++ s ++ "\n"] ∧
        (runPipeline w).st.stderr = []) ∧
    (∀ (w : World) (dir tok : String) (e : GoError),
      w.mkdirTempResult = .ok dir → getToken w.tokenResp = .ok tok →
      getManifest w.manifestResp = .error e →
      ∃ s, e = .other s ∧
        (runPipeline w).outcome = .exited 1 ∧
        (runPipeline w).st.stdout = ["Error " ++ s ++ "\n"] ∧
        (runPipeline w).st.stderr = []) ∧
    (∀ (w : World) (dir tok : String) (m : ManifestResponse) (e : GoError),
      w.mkdirTempResult = .ok dir → getToken w.tokenResp = .ok tok →
      getManifest w.manifestResp = .ok (some m) →
      (downloadLoop w m.layers initState).1 = .err e →
      ∃ s, e = .other s ∧
        (runPipeline w).outcome = .exited 1 ∧
        (runPipeline w).st.stdout = ["Error " ++ s ++ "\n"] ∧
        (runPipeline w).st.stderr = []) ∧
    (∀ (w : World) (dir tok : String) (m : ManifestResponse) (e : GoError),
      w.mkdirTempResult = .ok dir → getToken w.tokenResp = .ok tok →
      getManifest w.manifestResp = .ok (some m) →
      (∀ d ∈ m.layers, pullOk w d.digest = true) →
      (extractLoop w (m.layers.map fun d => (pulled w d.digest).1) dir
        (postDownloadState w m.layers)).1 = some e →
      (runPipeline w).outcome = .exited (handleError e).1 ∧
      (runPipeline w).st.stdout = (handleError e).2 ∧
      (runPipeline w).st.stderr = []) ∧
    (∀ (w : World) (dir tok : String) (m : ManifestResponse) (msg : String),
      w.mkdirTempResult = .ok dir → getToken w.tokenResp = .ok tok →
      getManifest w.manifestResp = .ok (some m) →
      (∀ d ∈ m.layers, pullOk w d.digest = true) →
      (∀ d ∈ m.layers, w.tarOutcome (pulled w d.digest).1 = none) →
      w.chrootErr = some msg →
      (runPipeline w).outcome = .exited 1 ∧
      (runPipeline w).st.stdout = ["Error " ++ msg ++ "\n"] ∧
      (runPipeline w).st.stderr = []) ∧
    (∀ (w : World) (dir tok : String) (m : ManifestResponse) (k : Int),
      w.mkdirTempResult = .ok dir → getToken w.tokenResp = .ok tok →
      getManifest w.manifestResp = .ok (some m) →
      (∀ d ∈ m.layers, pullOk w d.digest = true) →
      (∀ d ∈ m.layers, w.tarOutcome (pulled w d.digest).1 = none) →
      w.chrootErr = none → w.childOutcome = .exited k →
      (runPipeline w).outcome = .exited k ∧
      (runPipeline w).st.stderr = []) := by
  refine ⟨?_, ?_, ?_, ?_, ?_, ?_, ?_⟩
  · intro w msg hmk
    unfold runPipeline
    rw [hmk]
    exact ⟨rfl, rfl, rfl⟩
  · intro w dir e hmk htok
    obtain ⟨s, rfl⟩ := getToken_error_other htok
    refine ⟨s, rfl, ?_⟩
    unfold runPipeline
    rw [hmk]
    dsimp only
    rw [htok]
    exact ⟨rfl, rfl, rfl⟩
  · intro w dir tok e hmk htok hman
    obtain ⟨s, rfl⟩ := getManifest_error_other hman
    refine ⟨s, rfl, ?_⟩
    unfold runPipeline
    rw [hmk]
    dsimp only
    rw [htok]
    dsimp only
    rw [hman]
    exact ⟨rfl, rfl, rfl⟩
  · intro w dir tok m e hmk htok hman hdl
    obtain ⟨s, rfl⟩ := downloadLoop_err_other w m.layers initState e hdl
    obtain ⟨bc, fl, hsnd⟩ := downloadLoop_snd w m.layers initState
    refine ⟨s, rfl, ?_⟩
    rw [run_to_layers hmk htok hman]
    unfold layersStage
    dsimp only
    rw [hdl]
    refine ⟨rfl, ?_, ?_⟩
    · show (downloadLoop w m.layers initState).2.stdout ++
        ["Error " ++ s ++ "\n"] = ["Error " ++ s ++ "\n"]
      rw [hsnd]
      rfl
    · show (downloadLoop w m.layers initState).2.stderr = []
      rw [hsnd]
      rfl
  · intro w dir tok m e hmk htok hman hpull hext
    obtain ⟨ec, fsv, hsnd⟩ := extractLoop_snd w dir
      (m.layers.map fun d => (pulled w d.digest).1)
      (postDownloadState w m.layers)
    rw [run_to_layers hmk htok hman]
    unfold layersStage
    dsimp only
    rw [downloadLoop_ok w m.layers initState hpull]
    dsimp only
    have hst : ({ initState with
        blobCalls := initState.blobCalls ++ m.layers.map fun d => d.digest,
        files := (m.layers.map fun d => pulled w d.digest).reverse ++
          initState.files } : PipeState) = postDownloadState w m.layers := by
      simp [initState, postDownloadState, downloadedFiles]
    rw [hst, hext]
    refine ⟨rfl, ?_, ?_⟩
    · show (extractLoop w (m.layers.map fun d => (pulled w d.digest).1) dir
        (postDownloadState w m.layers)).2.stdout ++ (handleError e).2 =
        (handleError e).2
      rw [hsnd]
      rfl
    · show (extractLoop w (m.layers.map fun d => (pulled w d.digest).1) dir
        (postDownloadState w m.layers)).2.stderr = []
      rw [hsnd]
      rfl
  · intro w dir tok m msg hmk htok hman hpull htar hchroot
    rw [run_success hmk htok hman hpull htar, chrootStage_err _ hchroot]
    exact ⟨rfl, rfl, rfl⟩
  · intro w dir tok m k hmk htok hman hpull htar hchroot hchild
    rw [run_success hmk htok hman hpull htar, chrootStage_ok _ hchroot]
    by_cases hk0 : k = 0
    · subst hk0
      rw [launchStage_exit0 _ hchild]
      exact ⟨rfl, rfl⟩
    · rw [launchStage_exit_ne _ hchild hk0]
      exact ⟨rfl, rfl⟩

/-- C2 amended witness: the concrete exit-3 world propagates exit code 3,
and the concrete auth-failure world exits 1 with its message on standard
output and an empty error stream. -/
theorem C2_exit_code_amended_witness :
    (runPipeline wChild3).outcome = .exited 3 ∧
    (runPipeline wAuthFail).outcome = .exited 1 ∧
    (runPipeline wAuthFail).st.stdout = ["Error Error getting token\n"] ∧
    (runPipeline wAuthFail).st.stderr = [] := by
  refine ⟨(C2_exit_code_amended.2.2.2.2.2.2 wChild3 "/tmp/my-docker-1" "tok"
    okManifest 3 rfl rfl rfl (by decide) (by decide) rfl rfl).1, ?_⟩
  obtain ⟨s, hs, h1, h2, h3⟩ := C2_exit_code_amended.2.1 wAuthFail
    "/tmp/my-docker-1" (.other "Error getting token") rfl rfl
  obtain rfl := (GoError.other.inj hs).symm
  exact ⟨h1, h2, h3⟩

end DockerGo
